import Mathlib

/-!
Shallow embedding of `config_manager.py` (class `ConfigManager`) and proofs
about its data-access contract.

JSON values are modelled by the mutual inductive `JValue`/`JArray`/`JObject`.
The in-memory state of a `ConfigManager` instance (its `_config_cache` dict and
the lazily created `_device_index` attribute) is the structure `CMState`; the
filesystem visible to the JSON helpers is a partial map from path to
`FileContent`, where a present file either parses to a `JValue` or is
`malformed` (raising `json.JSONDecodeError` on load).
-/

mutual
inductive JValue : Type where
  | null : JValue
  | bool : Bool → JValue
  | num : Int → JValue
  | str : String → JValue
  | arr : JArray → JValue
  | obj : JObject → JValue
  deriving DecidableEq, Repr

inductive JArray : Type where
  | nil : JArray
  | cons : JValue → JArray → JArray
  deriving DecidableEq, Repr

inductive JObject : Type where
  | nil : JObject
  | cons : String → JValue → JObject → JObject
  deriving DecidableEq, Repr
end

/-- List of the elements of a JSON array, in order. -/
def JArray.toList : JArray → List JValue
  | .nil => []
  | .cons v tl => v :: tl.toList

/-- Build a `JArray` from a list of values. -/
def JArray.ofList : List JValue → JArray
  | [] => .nil
  | v :: vs => .cons v (JArray.ofList vs)

/-- Field lookup in a JSON object (first match; objects produced by
`json.load` have unique keys). -/
def JObject.lookup (o : JObject) (k : String) : Option JValue :=
  match o with
  | .nil => none
  | .cons l v tl => if l = k then some v else tl.lookup k

/-- Keys of a JSON object, in order. -/
def JObject.keys : JObject → List String
  | .nil => []
  | .cons k _ tl => k :: tl.keys

/-- Python subscript `d["k"]`: succeeds only when `d` is an object that has the
field; `none` models the `KeyError`/`TypeError` raised otherwise. -/
def JValue.getItem (v : JValue) (k : String) : Option JValue :=
  match v with
  | .obj o => o.lookup k
  | _ => none

/-- Python iteration `for d in devices` over a JSON value: arrays yield their
elements, dicts yield their keys, strings yield their characters; other values
are not iterable (`none` models the `TypeError`). -/
def JValue.iterate : JValue → Option (List JValue)
  | .arr xs => some xs.toList
  | .obj o => some (o.keys.map JValue.str)
  | .str s => some (s.data.map (fun c => JValue.str (String.mk [c])))
  | _ => none

/-- Content of a file as seen by `_read_json_file`: either it parses as JSON or
`json.load` raises `JSONDecodeError`. -/
inductive FileContent : Type where
  | json : JValue → FileContent
  | malformed : FileContent
deriving DecidableEq

/-- The filesystem visible to the JSON helpers: a partial map from path to
content (`none` = file does not exist, so `open` raises `FileNotFoundError`). -/
def FS : Type := String → Option FileContent

/-- Path held in `self.mobile_devices_path` (`config_dir / "mobile_devices.json"`). -/
def mobile_devices_path : String := "config/mobile_devices.json"

/-- Path held in `self.telegram_entities_path` (`config_dir / "telegram_entities.json"`). -/
def telegram_entities_path : String := "config/telegram_entities.json"

/-- Path held in `self.env_file_path` (`config_dir.parent / ".env"`). -/
def env_file_path : String := ".env"

/-- Path held in `self.example_env_file` (`config_dir.parent / ".env.example"`). -/
def example_env_file : String := ".env.example"

/-- Per-instance mutable state of `ConfigManager`: the `_config_cache` dict
(modelled as a partial map from path to cached value) and the `_device_index`
attribute (`none` while the attribute does not exist, i.e. while
`hasattr(self, "_device_index")` is false). -/
structure CMState where
  config_cache : String → Option JValue
  device_index : Option (JValue → Option JValue)

/-- Fresh state right after `__init__`: empty cache, no `_device_index`. -/
def CMState.initial : CMState :=
  { config_cache := fun _ => none, device_index := none }

/-- Fallback value of `_read_json_file` on `JSONDecodeError` or
`FileNotFoundError`: an empty list for the mobile-devices file, an empty dict
for every other path. -/
def read_fallback (file_path : String) : JValue :=
  if file_path = mobile_devices_path then .arr .nil else .obj .nil

/-- Embedding of `ConfigManager._read_json_file`: return the cached value when
present; otherwise parse the file, caching the parsed value, and on a missing
or malformed file return the fallback without touching the cache. -/
def read_json_file (fs : FS) (st : CMState) (file_path : String) : JValue × CMState :=
  match st.config_cache file_path with
  | some v => (v, st)
  | none =>
    match fs file_path with
    | some (.json data) =>
        (data,
         { st with config_cache := fun q => if q = file_path then some data else st.config_cache q })
    | some .malformed => (read_fallback file_path, st)
    | none => (read_fallback file_path, st)

/-- Result of `_write_json_file`: the filesystem and manager state after the
call, and the returned boolean. -/
structure WriteOutcome where
  fs : FS
  st : CMState
  ok : Bool

/-- Embedding of `ConfigManager._write_json_file`. The parameter `io_ok` is
the environment's behaviour: when `true` the `open`/`json.dump` succeed, the
file is replaced and then the cache entry is updated and `True` returned; when
`false` the write raises, the exception is caught before the cache-update line
runs, and `False` is returned. -/
def write_json_file (io_ok : Bool) (fs : FS) (st : CMState) (file_path : String)
    (data : JValue) : WriteOutcome :=
  if io_ok then
    { fs := fun q => if q = file_path then some (.json data) else fs q,
      st := { st with
                config_cache := fun q => if q = file_path then some data else st.config_cache q },
      ok := true }
  else
    { fs := fs, st := st, ok := false }

/-- Embedding of `ConfigManager.get_mobile_devices`. -/
def get_mobile_devices (fs : FS) (st : CMState) : JValue × CMState :=
  read_json_file fs st mobile_devices_path

/-- Index construction of `get_device_by_name`, the dict comprehension
`{d["name"]: d for d in devices}` processed left to right (a later record with
the same key overwrites an earlier one); `none` models the exception raised
when some record has no `"name"` item. -/
def build_device_index : List JValue → (JValue → Option JValue) → Option (JValue → Option JValue)
  | [], idx => some idx
  | d :: ds, idx =>
    match d.getItem "name" with
    | some k => build_device_index ds (fun q => if q = k then some d else idx q)
    | none => none

/-- Embedding of `ConfigManager.get_device_by_name`: read the device document,
build `_device_index` if the attribute is absent, then return
`self._device_index.get(device_name)`. `Except.error ()` models an uncaught
exception (iterating a non-iterable document, or a record without `"name"`). -/
def get_device_by_name (fs : FS) (st : CMState) (device_name : String) :
    Except Unit (Option JValue × CMState) :=
  let r := get_mobile_devices fs st
  match r.2.device_index with
  | some idx => .ok (idx (.str device_name), r.2)
  | none =>
    match r.1.iterate with
    | some ds =>
      match build_device_index ds (fun _ => none) with
      | some idx => .ok (idx (.str device_name), { r.2 with device_index := some idx })
      | none => .error ()
    | none => .error ()

/-- Embedding of `ConfigManager.invalidate_cache`: with a path, pop only that
cache entry; with no path, clear the whole cache and delete the
`_device_index` attribute. -/
def invalidate_cache (st : CMState) (file_path : Option String) : CMState :=
  match file_path with
  | some p => { st with config_cache := fun q => if q = p then none else st.config_cache q }
  | none => { config_cache := fun _ => none, device_index := none }

/-- The single-quote character used by `save_env_settings` when writing
lines and stripped (together with the double quote) from parsed values. -/
def quoteChar : Char := Char.ofNat 39

/-- The double-quote character. -/
def dquoteChar : Char := Char.ofNat 34

/-- One single-quote as a string. -/
def squote : String := String.mk [quoteChar]

/-- Model of a Python `dict` with string keys and values: the key list in
insertion order together with the value map. -/
structure SDict where
  keys : List String
  val : String → Option String

/-- The empty dict `{}`. -/
def SDict.empty : SDict :=
  { keys := [], val := fun _ => none }

/-- Dict item assignment `d[k] = v`: overwrite the value; append the key only
when it is new (assignment keeps an existing key at its position). -/
def SDict.insert (d : SDict) (k v : String) : SDict :=
  { keys := if k ∈ d.keys then d.keys else d.keys ++ [k],
    val := fun q => if q = k then some v else d.val q }

/-- Dict built from a list of items, first to last (later items overwrite). -/
def SDict.ofList (items : List (String × String)) : SDict :=
  items.foldl (fun d p => d.insert p.1 p.2) SDict.empty

/-- Python `d.update(e)` (equally, the merge `{**d, **e}`): every key of `e`
takes the value from `e`, other keys keep the value from `d`; new keys of `e`
are appended after the keys of `d`. -/
def SDict.update (d e : SDict) : SDict :=
  { keys := d.keys ++ e.keys.filter (fun k => decide (k ∉ d.keys)),
    val := fun q => if q ∈ e.keys then e.val q else d.val q }

/-- Python `line.strip()`: remove every leading and trailing whitespace
character. -/
def py_strip (s : String) : String :=
  String.mk (((s.data.dropWhile Char.isWhitespace).reverse.dropWhile Char.isWhitespace).reverse)

/-- Code-point comparison of two strings, as Python compares `str` values in
`sorted`: lexicographic on the sequences of code points. -/
def charListLe : List Char → List Char → Bool
  | [], _ => true
  | _ :: _, [] => false
  | a :: as, b :: bs => if a = b then charListLe as bs else decide (a.toNat < b.toNat)

/-- String order used for `sorted(env_data.keys())`. -/
def strLe (a b : String) : Bool :=
  charListLe a.data b.data

/-- Python `v.strip("'\"")`: remove every leading and trailing character that
is a single or double quote. -/
def strip_env_quotes (v : String) : String :=
  let p := fun c => c == quoteChar || c == dquoteChar
  String.mk (((v.data.dropWhile p).reverse.dropWhile p).reverse)

/-- Python `line.strip().split("=", 1)` on a line containing `=`: the part
before the first `=` and the part after it. -/
def split_first_eq (s : String) : String × String :=
  (String.mk (s.data.takeWhile (fun c => c != '=')),
   String.mk ((s.data.dropWhile (fun c => c != '=')).drop 1))

/-- One iteration of the read loop of `save_env_settings`: a line containing
`=` is stripped, split at the first `=`, and the value is unquoted; other
lines are skipped. -/
def parse_env_line (line : String) : Option (String × String) :=
  if line.data.contains '=' then
    let kv := split_first_eq (py_strip line)
    some (kv.1, strip_env_quotes kv.2)
  else none

/-- The read loop of `save_env_settings`: fold the parsed lines into the
`env_data` dict (a later line with the same key overwrites an earlier one). -/
def parse_env_file (lines : List String) : SDict :=
  lines.foldl
    (fun d line =>
      match parse_env_line line with
      | some kv => d.insert kv.1 kv.2
      | none => d)
    SDict.empty

/-- The dict held in `env_data` just before the write loop of
`save_env_settings`: the parsed existing file (empty when the file does not
exist) updated with `{**self.default_env_settings, **settings}`. -/
def save_env_dict (default_env_settings settings : List (String × String))
    (existing : Option (List String)) : SDict :=
  let env_data :=
    match existing with
    | some lines => parse_env_file lines
    | none => SDict.empty
  env_data.update ((SDict.ofList default_env_settings).update (SDict.ofList settings))

/-- One line written by the write loop: `KEY='VALUE'`. -/
def render_env_line (d : SDict) (k : String) : String :=
  k ++ "=" ++ squote ++ ((d.val k).getD "") ++ squote

/-- Embedding of `ConfigManager.save_env_settings` (the file content it
writes, as a list of lines): one `KEY='VALUE'` line per key of `env_data`,
keys in sorted order. `existing` is the prior content of the `.env` file
(`none` when the file does not exist); `default_env_settings` is passed as a
parameter because the source elides most of its literal entries
(`# ... (other settings)`). -/
def save_env_settings (default_env_settings settings : List (String × String))
    (existing : Option (List String)) : List String :=
  let d := save_env_dict default_env_settings settings existing
  (List.insertionSort (fun a b => strLe a b = true) d.keys).map (render_env_line d)

/-- The `default_env_settings` dict as literally visible in the source:
`{"TELEGRAM_API_ID": ""}` (the remaining entries are elided by the
`# ... (other settings)` comment). -/
def visible_default_env_settings : List (String × String) :=
  [("TELEGRAM_API_ID", "")]

/-- Embedding of `ConfigManager.get_env_settings`: copy the defaults and
replace each value by `os.getenv(key, default)`. The process environment is
the map `env`. -/
def get_env_settings (env : String → Option String)
    (default_env_settings : List (String × String)) : List (String × String) :=
  default_env_settings.map (fun p => (p.1, (env p.1).getD p.2))

/-- One `if not <file>.exists(): self._create_<file>()` step of
`_initialize_config_files`, over a filesystem of raw file contents.
Modelled from the spec: the creator helpers `_create_example_env`,
`_create_default_devices` and `_create_empty_telegram_entities` are not
present in the source; per the spec each one only writes its own default
content (the parameter `content`) to its own missing file. -/
def create_if_missing (path content : String) (fs : String → Option String) :
    String → Option String :=
  if (fs path).isSome then fs
  else fun q => if q = path then some content else fs q

/-- Embedding of `ConfigManager._initialize_config_files`: the three
`if not <file>.exists(): self._create_<file>()` steps in source order. -/
def initialize_config_files (example_content devices_content entities_content : String)
    (fs : String → Option String) : String → Option String :=
  create_if_missing telegram_entities_path entities_content
    (create_if_missing mobile_devices_path devices_content
      (create_if_missing example_env_file example_content fs))

/-- Reading a JSON file never changes the device index. -/
theorem read_json_file_device_index (fs : FS) (st : CMState) (p : String) :
    (read_json_file fs st p).2.device_index = st.device_index := by
  unfold read_json_file
  split
  · rfl
  · split <;> rfl

/-- C2: when `_write_json_file` returns `True`, an immediately following
`_read_json_file` of the same path (no invalidation in between) returns
exactly the written value, served from the freshly updated cache entry. -/
theorem write_read_roundtrip (io_ok : Bool) (fs : FS) (st : CMState) (file_path : String)
    (data : JValue)
    (h : (write_json_file io_ok fs st file_path data).ok = true) :
    read_json_file (write_json_file io_ok fs st file_path data).fs
        (write_json_file io_ok fs st file_path data).st file_path
      = (data, (write_json_file io_ok fs st file_path data).st) := by
  cases io_ok with
  | false => simp [write_json_file] at h
  | true => simp [write_json_file, read_json_file]

/-- Witness for C2 at a concrete write into a fresh manager. -/
theorem write_read_roundtrip_witness :
    read_json_file
        (write_json_file true (fun _ => none) CMState.initial mobile_devices_path JValue.null).fs
        (write_json_file true (fun _ => none) CMState.initial mobile_devices_path JValue.null).st
        mobile_devices_path
      = (JValue.null,
         (write_json_file true (fun _ => none) CMState.initial mobile_devices_path JValue.null).st) :=
  write_read_roundtrip true (fun _ => none) CMState.initial mobile_devices_path JValue.null rfl

/-- C4: with no cache entry, reading a missing or malformed file returns the
shape-dependent empty fallback (empty list for the device document, empty
dict otherwise) and does not populate the cache with it, so a second read of
the same still-broken path parses again instead of hitting the cache. -/
theorem read_fallback_not_cached (fs : FS) (st : CMState) (file_path : String)
    (hc : st.config_cache file_path = none)
    (hf : fs file_path = none ∨ fs file_path = some .malformed) :
    read_json_file fs st file_path = (read_fallback file_path, st)
    ∧ read_fallback mobile_devices_path = JValue.arr .nil
    ∧ (file_path ≠ mobile_devices_path → read_fallback file_path = JValue.obj .nil)
    ∧ (read_json_file fs st file_path).2.config_cache file_path = none := by
  have h1 : read_json_file fs st file_path = (read_fallback file_path, st) := by
    rcases hf with h | h <;> simp [read_json_file, hc, h]
  refine ⟨h1, by simp [read_fallback], fun hne => by simp [read_fallback, hne], ?_⟩
  rw [h1]
  exact hc

/-- Witness for C4: a fresh manager reading the missing entities file gets an
empty dict and caches nothing. -/
theorem read_fallback_not_cached_witness :
    read_json_file (fun _ => none) CMState.initial telegram_entities_path
      = (read_fallback telegram_entities_path, CMState.initial)
    ∧ read_fallback telegram_entities_path = JValue.obj .nil
    ∧ (read_json_file (fun _ => none) CMState.initial telegram_entities_path).2.config_cache
        telegram_entities_path = none :=
  have h := read_fallback_not_cached (fun _ => none) CMState.initial telegram_entities_path rfl
    (Or.inl rfl)
  ⟨h.1, by decide, h.2.2.2⟩

/-- C5: a bare `invalidate_cache()` empties the whole cache and discards the
device index, so the next read parses the file from disk; `invalidate_cache`
with a path removes only that entry, leaving every other cache entry and the
device index untouched. -/
theorem invalidate_cache_spec (st : CMState) (fs : FS) (p q : String) (v : JValue) :
    (invalidate_cache st none).config_cache q = none
    ∧ (invalidate_cache st none).device_index = none
    ∧ (fs q = some (.json v) → (read_json_file fs (invalidate_cache st none) q).1 = v)
    ∧ (invalidate_cache st (some p)).config_cache p = none
    ∧ (q ≠ p → (invalidate_cache st (some p)).config_cache q = st.config_cache q)
    ∧ (invalidate_cache st (some p)).device_index = st.device_index := by
  refine ⟨rfl, rfl, ?_, ?_, ?_, rfl⟩
  · intro h
    simp [read_json_file, invalidate_cache, h]
  · simp [invalidate_cache]
  · intro h
    simp [invalidate_cache, h]

/-- Witness for C5: a manager with a cached entry under path `a` and a built
index; full invalidation makes the read of `b` hit the disk, and targeted
invalidation of `a` leaves the entry for `b` alone. -/
theorem invalidate_cache_spec_witness :
    (read_json_file (fun q => if q = "b" then some (.json (JValue.bool true)) else none)
        (invalidate_cache
          (⟨fun q => if q = "a" then some JValue.null else none, some (fun _ => none)⟩ : CMState)
          none)
        "b").1 = JValue.bool true
    ∧ (invalidate_cache
          (⟨fun q => if q = "a" then some JValue.null else none, some (fun _ => none)⟩ : CMState)
          (some "a")).config_cache "b"
        = (⟨fun q => if q = "a" then some JValue.null else none,
            some (fun _ => none)⟩ : CMState).config_cache "b" :=
  ⟨(invalidate_cache_spec
      (⟨fun q => if q = "a" then some JValue.null else none, some (fun _ => none)⟩ : CMState)
      (fun q => if q = "b" then some (.json (JValue.bool true)) else none)
      "a" "b" (JValue.bool true)).2.2.1 (by decide),
   (invalidate_cache_spec
      (⟨fun q => if q = "a" then some JValue.null else none, some (fun _ => none)⟩ : CMState)
      (fun q => if q = "b" then some (.json (JValue.bool true)) else none)
      "a" "b" (JValue.bool true)).2.2.2.2.1 (by decide)⟩

/-- C9: when `_write_json_file` returns `False`, the manager state (in
particular the cache) is exactly what it was before the call: an existing
entry for the path still holds its previous value and a subsequent read
returns that pre-write cached value. -/
theorem write_failure_frame (io_ok : Bool) (fs : FS) (st : CMState) (file_path : String)
    (data : JValue)
    (h : (write_json_file io_ok fs st file_path data).ok = false) :
    (write_json_file io_ok fs st file_path data).st = st
    ∧ ∀ w, st.config_cache file_path = some w →
        read_json_file (write_json_file io_ok fs st file_path data).fs
            (write_json_file io_ok fs st file_path data).st file_path = (w, st) := by
  cases io_ok with
  | true => simp [write_json_file] at h
  | false =>
    refine ⟨rfl, fun w hw => ?_⟩
    simp [write_json_file, read_json_file, hw]

/-- Witness for C9: a failed write of `null` over a cached value `7` leaves
the cached `7` in place and readable. -/
theorem write_failure_frame_witness :
    (write_json_file false (fun _ => none)
        (⟨fun q => if q = "p" then some (JValue.num 7) else none, none⟩ : CMState)
        "p" JValue.null).st
      = (⟨fun q => if q = "p" then some (JValue.num 7) else none, none⟩ : CMState)
    ∧ read_json_file
        (write_json_file false (fun _ => none)
          (⟨fun q => if q = "p" then some (JValue.num 7) else none, none⟩ : CMState)
          "p" JValue.null).fs
        (write_json_file false (fun _ => none)
          (⟨fun q => if q = "p" then some (JValue.num 7) else none, none⟩ : CMState)
          "p" JValue.null).st
        "p"
      = (JValue.num 7,
         (⟨fun q => if q = "p" then some (JValue.num 7) else none, none⟩ : CMState)) :=
  have h := write_failure_frame false (fun _ => none)
    (⟨fun q => if q = "p" then some (JValue.num 7) else none, none⟩ : CMState) "p" JValue.null rfl
  ⟨h.1, h.2 (JValue.num 7) (by decide)⟩

/-- Helper: `List.lookup` on a cons cell, with propositional equality. -/
theorem lookup_cons_eq (a k v : String) (es : List (String × String)) :
    List.lookup a ((k, v) :: es) = if a = k then some v else List.lookup a es := by
  cases h : a == k with
  | true => simp [List.lookup, h, eq_of_beq h]
  | false => simp [List.lookup, h, ne_of_beq_false h]

/-- C7: `get_env_settings` keeps exactly the default key set, and each key is
mapped to the process environment variable of that name when set, to the
default value otherwise; its only input is the process environment, never the
`.env` file. -/
theorem get_env_settings_spec (env : String → Option String)
    (default_env_settings : List (String × String)) :
    (get_env_settings env default_env_settings).map Prod.fst
        = default_env_settings.map Prod.fst
    ∧ ∀ k : String,
        List.lookup k (get_env_settings env default_env_settings)
          = (List.lookup k default_env_settings).map (fun dflt => (env k).getD dflt) := by
  constructor
  · simp [get_env_settings]
  · intro k
    induction default_env_settings with
    | nil => rfl
    | cons p tl ih =>
      obtain ⟨pk, pv⟩ := p
      simp only [get_env_settings, List.map_cons] at ih ⊢
      rw [lookup_cons_eq, lookup_cons_eq]
      by_cases h : k = pk
      · simp [h]
      · simp [h, ih]

/-- The spec-side lookup of `get_device_by_name` on a device list: the last
record whose `"name"` field equals the key (dict-comprehension collisions are
last-write-wins), absent when no record matches. -/
def last_key_match (k : JValue) (ds : List JValue) : Option JValue :=
  (ds.filter (fun d => decide (d.getItem "name" = some k))).getLast?

/-- Spec-side lookup by device name. -/
def last_name_match (device_name : String) (ds : List JValue) : Option JValue :=
  last_key_match (.str device_name) ds

/-- Round trip between `JArray` and `List`. -/
theorem toList_ofList (ds : List JValue) : (JArray.ofList ds).toList = ds := by
  induction ds with
  | nil => rfl
  | cons v tl ih => simp [JArray.ofList, JArray.toList, ih]

/-- Characterization of the device-index construction when every record has a
`"name"` item: it succeeds, and the resulting dict maps each key to the last
record carrying it, falling back to the initial dict. -/
theorem build_device_index_spec (ds : List JValue) (idx0 : JValue → Option JValue)
    (h : ∀ d ∈ ds, (d.getItem "name").isSome) :
    ∃ idx, build_device_index ds idx0 = some idx
      ∧ ∀ q, idx q =
          match last_key_match q ds with
          | some d => some d
          | none => idx0 q := by
  induction ds generalizing idx0 with
  | nil => exact ⟨idx0, rfl, fun q => rfl⟩
  | cons d ds ih =>
    have hd : (d.getItem "name").isSome := h d (List.mem_cons_self d ds)
    obtain ⟨k, hk⟩ := Option.isSome_iff_exists.mp hd
    have htl : ∀ e ∈ ds, (e.getItem "name").isSome :=
      fun e he => h e (List.mem_cons_of_mem d he)
    obtain ⟨idx, hbuild, hidx⟩ := ih (fun q => if q = k then some d else idx0 q) htl
    refine ⟨idx, by simp [build_device_index, hk, hbuild], fun q => ?_⟩
    rw [hidx q]
    unfold last_key_match
    rw [List.filter_cons]
    by_cases hqd : d.getItem "name" = some q
    · have hkq : k = q := by
        rw [hk] at hqd
        exact Option.some.inj hqd
      subst hkq
      cases hf : ds.filter (fun e => decide (e.getItem "name" = some k)) with
      | nil => simp [hqd, hf]
      | cons e l =>
        obtain ⟨w, hw⟩ := Option.isSome_iff_exists.mp
          (List.getLast?_isSome.mpr (List.cons_ne_nil e l))
        simp [hqd, hf, List.getLast?_cons_cons, hw]
    · have hkq : ¬ q = k := by
        intro hq
        rw [hq] at hqd
        exact hqd hk
      cases hf : ds.filter (fun e => decide (e.getItem "name" = some q)) with
      | nil => simp [hqd, hf, hkq]
      | cons e l =>
        obtain ⟨w, hw⟩ := Option.isSome_iff_exists.mp
          (List.getLast?_isSome.mpr (List.cons_ne_nil e l))
        simp [hqd, hf, hw]

/-- Sample device record `{"name": "A", "id": 1}`. -/
def deviceA : JValue := .obj (.cons "name" (.str "A") (.cons "id" (.num 1) .nil))

/-- Sample device record `{"name": "B", "id": 2}`. -/
def deviceB : JValue := .obj (.cons "name" (.str "B") (.cons "id" (.num 2) .nil))

/-- Sample device record `{"id": 3}`, lacking a name. -/
def deviceNoName : JValue := .obj (.cons "id" (.num 3) .nil)

/-- Filesystem whose device document is `[deviceA, deviceB]`. -/
def device_fs : FS :=
  fun p =>
    if p = mobile_devices_path then some (.json (.arr (JArray.ofList [deviceA, deviceB])))
    else none

/-- Filesystem whose device document is `[deviceA, deviceNoName]`. -/
def device_fs_missing : FS :=
  fun p =>
    if p = mobile_devices_path then some (.json (.arr (JArray.ofList [deviceA, deviceNoName])))
    else none

/-- C3: with the index not yet built and the device document holding a list of
records that all carry a `"name"` field, `get_device_by_name` returns the last
record whose `"name"` field equals the queried name, and an absent result when
no record matches. -/
theorem get_device_by_name_spec (fs : FS) (st : CMState) (device_name : String)
    (ds : List JValue)
    (hidx : st.device_index = none)
    (hread : (get_mobile_devices fs st).1 = JValue.arr (JArray.ofList ds))
    (hnames : ∀ d ∈ ds, (d.getItem "name").isSome) :
    ∃ idx, get_device_by_name fs st device_name
      = .ok (last_name_match device_name ds,
             { (get_mobile_devices fs st).2 with device_index := some idx }) := by
  obtain ⟨idx, hbuild, hidxp⟩ := build_device_index_spec ds (fun _ => none) hnames
  refine ⟨idx, ?_⟩
  have h2 : (get_mobile_devices fs st).2.device_index = none :=
    (read_json_file_device_index fs st mobile_devices_path).trans hidx
  have hval : idx (.str device_name) = last_name_match device_name ds := by
    rw [hidxp (.str device_name)]
    unfold last_name_match
    cases last_key_match (.str device_name) ds <;> rfl
  unfold get_device_by_name
  simp only [h2, hread, JValue.iterate, toList_ofList, hbuild, hval]

/-- Witness for C3 on the device list `[{"name":"A","id":1},{"name":"B","id":2}]`:
querying `"B"` returns the second record. -/
theorem get_device_by_name_spec_witness :
    (∃ idx, get_device_by_name device_fs CMState.initial "B"
        = .ok (last_name_match "B" [deviceA, deviceB],
               { (get_mobile_devices device_fs CMState.initial).2 with
                   device_index := some idx }))
    ∧ last_name_match "B" [deviceA, deviceB] = some deviceB :=
  ⟨get_device_by_name_spec device_fs CMState.initial "B" [deviceA, deviceB] rfl (by decide)
      (by decide),
   by decide⟩

/-- Index construction fails (raises) as soon as some record lacks a `"name"`
item. -/
theorem build_device_index_missing (ds : List JValue) (idx0 : JValue → Option JValue)
    (h : ∃ d ∈ ds, d.getItem "name" = none) :
    build_device_index ds idx0 = none := by
  induction ds generalizing idx0 with
  | nil => simp at h
  | cons d ds ih =>
    obtain ⟨e, he, hee⟩ := h
    rcases List.mem_cons.mp he with rfl | htl
    · simp [build_device_index, hee]
    · cases hk : d.getItem "name" with
      | none => simp [build_device_index, hk]
      | some k => simp [build_device_index, hk, ih _ ⟨e, htl, hee⟩]

/-- C10: with the index not yet built, `get_device_by_name` raises (returns no
record and no absent result) when the current device list contains at least
one record lacking a `"name"` key. -/
theorem get_device_by_name_missing_name (fs : FS) (st : CMState) (device_name : String)
    (ds : List JValue)
    (hidx : st.device_index = none)
    (hread : (get_mobile_devices fs st).1 = JValue.arr (JArray.ofList ds))
    (hmiss : ∃ d ∈ ds, d.getItem "name" = none) :
    get_device_by_name fs st device_name = .error () := by
  have h2 : (get_mobile_devices fs st).2.device_index = none :=
    (read_json_file_device_index fs st mobile_devices_path).trans hidx
  unfold get_device_by_name
  simp only [h2, hread, JValue.iterate, toList_ofList,
    build_device_index_missing ds (fun _ => none) hmiss]

/-- Witness for C10 on the device list `[{"name":"A","id":1},{"id":3}]`. -/
theorem get_device_by_name_missing_name_witness :
    get_device_by_name device_fs_missing CMState.initial "A" = .error () :=
  get_device_by_name_missing_name device_fs_missing CMState.initial "A"
    [deviceA, deviceNoName] rfl (by decide) ⟨deviceNoName, by decide, by decide⟩

/-- Characters are equal when their code points are. -/
theorem char_eq_of_toNat_eq (a b : Char) (h : a.toNat = b.toNat) : a = b :=
  Char.ext (UInt32.ext h)

/-- The code-point order is total. -/
theorem charListLe_total (as bs : List Char) :
    charListLe as bs = true ∨ charListLe bs as = true := by
  induction as generalizing bs with
  | nil => left; rfl
  | cons a as ih =>
    cases bs with
    | nil => right; rfl
    | cons b bs =>
      by_cases h : a = b
      · subst h
        rcases ih bs with h1 | h1
        · left; simp [charListLe, h1]
        · right; simp [charListLe, h1]
      · rcases Nat.lt_or_ge a.toNat b.toNat with hv | hv
        · left; simp [charListLe, h, hv]
        · have hne : b.toNat ≠ a.toNat := fun he => h (char_eq_of_toNat_eq a b he.symm)
          have hbv : b.toNat < a.toNat := Nat.lt_of_le_of_ne hv hne
          have hba : ¬ b = a := fun he => h he.symm
          right
          simp [charListLe, hba, hbv]

/-- The code-point order is transitive. -/
theorem charListLe_trans (as bs cs : List Char) (h1 : charListLe as bs = true)
    (h2 : charListLe bs cs = true) : charListLe as cs = true := by
  induction as generalizing bs cs with
  | nil => rfl
  | cons a as ih =>
    cases bs with
    | nil => simp [charListLe] at h1
    | cons b bs =>
      cases cs with
      | nil => simp [charListLe] at h2
      | cons c cs =>
        by_cases hab : a = b
        · subst hab
          by_cases hac : a = c
          · subst hac
            simp only [charListLe, if_pos rfl] at h1 h2 ⊢
            exact ih bs cs h1 h2
          · simp only [charListLe, if_pos rfl] at h1
            simp [charListLe, hac] at h2 ⊢
            exact h2
        · by_cases hbc : b = c
          · subst hbc
            simp [charListLe, hab] at h1 ⊢
            exact h1
          · simp [charListLe, hab] at h1
            simp [charListLe, hbc] at h2
            have hv : a.toNat < c.toNat := Nat.lt_trans h1 h2
            have hac : ¬ a = c := by
              intro he
              subst he
              exact Nat.lt_irrefl _ hv
            simp [charListLe, hac, hv]

instance : IsTotal String (fun a b => strLe a b = true) :=
  ⟨fun a b => charListLe_total a.data b.data⟩

instance : IsTrans String (fun a b => strLe a b = true) :=
  ⟨fun a b c => charListLe_trans a.data b.data c.data⟩

/-- Parsed prior content of the `.env` file: the empty dict when the file
does not exist. -/
def parse_existing : Option (List String) → SDict
  | some lines => parse_env_file lines
  | none => SDict.empty

/-- The value the last item with key `q` assigns when a list of items is
poured into a dict (absent when no item has key `q`). -/
def last_value (items : List (String × String)) (q : String) : Option String :=
  ((items.filter (fun p => decide (p.1 = q))).getLast?).map Prod.snd

/-- Key membership after one dict assignment. -/
theorem SDict.mem_insert_keys (d : SDict) (k v q : String) :
    q ∈ (d.insert k v).keys ↔ q ∈ d.keys ∨ q = k := by
  unfold SDict.insert
  by_cases h : k ∈ d.keys
  · simp only [if_pos h]
    exact ⟨Or.inl, fun hq => by
      rcases hq with h1 | rfl
      · exact h1
      · exact h⟩
  · simp [if_neg h, List.mem_append]

/-- Value after pouring a list of items into a dict: the last matching item
wins, else the prior value. -/
theorem foldl_insert_val (items : List (String × String)) (d : SDict) (q : String) :
    (items.foldl (fun d p => d.insert p.1 p.2) d).val q =
      match last_value items q with
      | some v => some v
      | none => d.val q := by
  induction items using List.reverseRecOn with
  | nil => rfl
  | append_singleton l p ih =>
    rw [List.foldl_append]
    simp only [List.foldl_cons, List.foldl_nil]
    by_cases hp : p.1 = q
    · have hlv : last_value (l ++ [p]) q = some p.2 := by
        simp [last_value, List.filter_append, hp, List.getLast?_concat]
      rw [hlv]
      simp [SDict.insert, hp.symm]
    · have hlv : last_value (l ++ [p]) q = last_value l q := by
        simp [last_value, List.filter_append, hp]
      have hne : ¬ q = p.1 := fun he => hp he.symm
      rw [hlv]
      simp only [SDict.insert, if_neg hne]
      exact ih

/-- Key membership after pouring a list of items into a dict. -/
theorem foldl_insert_mem_keys (items : List (String × String)) (d : SDict) (q : String) :
    q ∈ (items.foldl (fun d p => d.insert p.1 p.2) d).keys
      ↔ q ∈ d.keys ∨ q ∈ items.map Prod.fst := by
  induction items generalizing d with
  | nil => simp
  | cons p tl ih =>
    rw [List.foldl_cons, ih, SDict.mem_insert_keys]
    simp only [List.map_cons, List.mem_cons]
    tauto

/-- Dict assignment preserves distinctness of the key list. -/
theorem SDict.nodup_insert (d : SDict) (k v : String) (h : d.keys.Nodup) :
    (d.insert k v).keys.Nodup := by
  unfold SDict.insert
  by_cases hk : k ∈ d.keys
  · simpa [if_pos hk]
  · simp only [if_neg hk]
    refine List.Nodup.append h (List.nodup_singleton k) ?_
    intro a ha hb
    rw [List.mem_singleton] at hb
    subst hb
    exact hk ha

/-- Pouring items into a dict preserves distinctness of the key list. -/
theorem foldl_insert_nodup (items : List (String × String)) (d : SDict) (h : d.keys.Nodup) :
    (items.foldl (fun d p => d.insert p.1 p.2) d).keys.Nodup := by
  induction items generalizing d with
  | nil => exact h
  | cons p tl ih => exact ih _ (SDict.nodup_insert d p.1 p.2 h)

/-- Value lookup in a dict built from an item list. -/
theorem SDict.val_ofList (items : List (String × String)) (q : String) :
    (SDict.ofList items).val q = last_value items q := by
  unfold SDict.ofList
  rw [foldl_insert_val]
  cases last_value items q <;> rfl

/-- Key membership in a dict built from an item list. -/
theorem SDict.mem_ofList_keys (items : List (String × String)) (q : String) :
    q ∈ (SDict.ofList items).keys ↔ q ∈ items.map Prod.fst := by
  unfold SDict.ofList
  rw [foldl_insert_mem_keys]
  simp [SDict.empty]

/-- The key list of a dict built from an item list is duplicate-free. -/
theorem SDict.nodup_ofList (items : List (String × String)) :
    (SDict.ofList items).keys.Nodup :=
  foldl_insert_nodup items SDict.empty List.nodup_nil

/-- Key membership after `d.update(e)`. -/
theorem SDict.mem_update_keys (d e : SDict) (q : String) :
    q ∈ (d.update e).keys ↔ q ∈ d.keys ∨ q ∈ e.keys := by
  unfold SDict.update
  simp only [List.mem_append, List.mem_filter, decide_eq_true_eq]
  by_cases h : q ∈ d.keys <;> simp [h]

/-- Updating preserves distinctness of the key list. -/
theorem SDict.nodup_update (d e : SDict) (hd : d.keys.Nodup) (he : e.keys.Nodup) :
    (d.update e).keys.Nodup := by
  unfold SDict.update
  refine List.Nodup.append hd (he.filter _) ?_
  intro a ha hb
  rw [List.mem_filter, decide_eq_true_eq] at hb
  exact hb.2 ha

/-- A matching last item exists exactly for the keys of the item list. -/
theorem last_value_isSome (items : List (String × String)) (q : String) :
    (last_value items q).isSome = true ↔ q ∈ items.map Prod.fst := by
  unfold last_value
  have hmap : ∀ x : Option (String × String), (Option.map Prod.snd x).isSome = x.isSome := by
    intro x
    cases x <;> rfl
  rw [hmap, List.getLast?_isSome]
  constructor
  · intro h
    obtain ⟨p, hp⟩ := List.exists_mem_of_ne_nil _ h
    have := List.mem_filter.mp hp
    rw [decide_eq_true_eq] at this
    exact List.mem_map.mpr ⟨p, this.1, this.2⟩
  · intro h
    obtain ⟨p, hp, he⟩ := List.mem_map.mp h
    intro hnil
    have : p ∈ items.filter (fun p => decide (p.1 = q)) :=
      List.mem_filter.mpr ⟨hp, by simpa using he⟩
    rw [hnil] at this
    exact List.not_mem_nil p this

/-- The env-file read loop is the same dict as pouring the parsed lines. -/
theorem parse_env_file_eq (lines : List String) :
    parse_env_file lines = SDict.ofList (lines.filterMap parse_env_line) := by
  unfold parse_env_file SDict.ofList
  suffices h : ∀ d : SDict,
      lines.foldl
        (fun d line =>
          match parse_env_line line with
          | some kv => d.insert kv.1 kv.2
          | none => d)
        d
      = (lines.filterMap parse_env_line).foldl (fun d p => d.insert p.1 p.2) d from h _
  induction lines with
  | nil => intro d; rfl
  | cons line tl ih =>
    intro d
    rw [List.foldl_cons, List.filterMap_cons]
    cases h : parse_env_line line with
    | none => simpa [h] using ih d
    | some kv => simpa [h] using ih (d.insert kv.1 kv.2)

/-- The key list of the parsed existing file is duplicate-free. -/
theorem nodup_parse_existing (existing : Option (List String)) :
    (parse_existing existing).keys.Nodup := by
  cases existing with
  | none => exact List.nodup_nil
  | some lines =>
    show (parse_env_file lines).keys.Nodup
    rw [parse_env_file_eq]
    exact SDict.nodup_ofList _

/-- Unfolding of `save_env_dict` through `parse_existing`. -/
theorem save_env_dict_eq (defaults settings : List (String × String))
    (existing : Option (List String)) :
    save_env_dict defaults settings existing =
      (parse_existing existing).update
        ((SDict.ofList defaults).update (SDict.ofList settings)) := by
  cases existing <;> rfl

/-- Value after `d.update(e)`. -/
theorem SDict.val_update (d e : SDict) (q : String) :
    (d.update e).val q = if q ∈ e.keys then e.val q else d.val q := rfl

/-- A key outside the dict built from an item list has no last matching item. -/
theorem last_value_eq_none (items : List (String × String)) (q : String)
    (h : ¬ q ∈ (SDict.ofList items).keys) : last_value items q = none := by
  rw [SDict.mem_ofList_keys] at h
  cases hlv : last_value items q with
  | none => rfl
  | some v => exact absurd ((last_value_isSome items q).mp (by simp [hlv])) h

/-- A key of the dict built from an item list has a last matching item. -/
theorem last_value_eq_some (items : List (String × String)) (q : String)
    (h : q ∈ (SDict.ofList items).keys) : ∃ v, last_value items q = some v :=
  Option.isSome_iff_exists.mp
    ((last_value_isSome items q).mpr ((SDict.mem_ofList_keys items q).mp h))

/-- C1 (amended): each key of the file written by `save_env_settings` takes
its value with the precedence: `settings` first, then the default set, then
the existing file — so a default key present in the existing file but absent
from `settings` ends up with its default value, not the existing one. -/
theorem save_env_settings_precedence (defaults settings : List (String × String))
    (existing : Option (List String)) (q : String) :
    (save_env_dict defaults settings existing).val q =
      match last_value settings q with
      | some v => some v
      | none =>
        match last_value defaults q with
        | some v => some v
        | none => (parse_existing existing).val q := by
  rw [save_env_dict_eq, SDict.val_update]
  by_cases hs : q ∈ (SDict.ofList settings).keys
  · obtain ⟨v, hv⟩ := last_value_eq_some settings q hs
    have hm : q ∈ ((SDict.ofList defaults).update (SDict.ofList settings)).keys :=
      (SDict.mem_update_keys _ _ q).mpr (Or.inr hs)
    rw [if_pos hm, SDict.val_update, if_pos hs, SDict.val_ofList, hv]
  · have hs0 : last_value settings q = none := last_value_eq_none settings q hs
    by_cases hd : q ∈ (SDict.ofList defaults).keys
    · obtain ⟨w, hw⟩ := last_value_eq_some defaults q hd
      have hm : q ∈ ((SDict.ofList defaults).update (SDict.ofList settings)).keys :=
        (SDict.mem_update_keys _ _ q).mpr (Or.inl hd)
      rw [if_pos hm, SDict.val_update, if_neg hs, SDict.val_ofList, hs0, hw]
    · have hd0 : last_value defaults q = none := last_value_eq_none defaults q hd
      have hm : ¬ q ∈ ((SDict.ofList defaults).update (SDict.ofList settings)).keys := by
        rw [SDict.mem_update_keys]
        rintro (h1 | h1)
        · exact hd h1
        · exact hs h1
      rw [if_neg hm, hs0, hd0]

/-- Witness for the amended C1 at a concrete default key present in the
existing file and absent from `settings`. -/
theorem save_env_settings_precedence_witness :
    (save_env_dict visible_default_env_settings []
        (some ["TELEGRAM_API_ID=" ++ squote ++ "x" ++ squote])).val "TELEGRAM_API_ID"
      = match last_value [] "TELEGRAM_API_ID" with
        | some v => some v
        | none =>
          match last_value visible_default_env_settings "TELEGRAM_API_ID" with
          | some v => some v
          | none =>
            (parse_existing
              (some ["TELEGRAM_API_ID=" ++ squote ++ "x" ++ squote])).val "TELEGRAM_API_ID" :=
  save_env_settings_precedence visible_default_env_settings []
    (some ["TELEGRAM_API_ID=" ++ squote ++ "x" ++ squote]) "TELEGRAM_API_ID"

/-- C1 counterexample: with prior file content `TELEGRAM_API_ID='x'` and
empty `settings`, the key is in the default set and absent from `settings`,
the existing file maps it to `x`, yet the rewritten file carries the default
empty value — the existing value is not kept. -/
theorem save_env_settings_clobbers_existing :
    (parse_existing (some ["TELEGRAM_API_ID=" ++ squote ++ "x" ++ squote])).val
        "TELEGRAM_API_ID" = some "x"
    ∧ save_env_settings visible_default_env_settings []
        (some ["TELEGRAM_API_ID=" ++ squote ++ "x" ++ squote])
        = ["TELEGRAM_API_ID=" ++ squote ++ squote]
    ∧ (save_env_dict visible_default_env_settings []
        (some ["TELEGRAM_API_ID=" ++ squote ++ "x" ++ squote])).val "TELEGRAM_API_ID"
        = some ""
    ∧ ("" : String) ≠ "x" := by
  refine ⟨by decide, by decide, by decide, by decide⟩

/-- C6: the file written by `save_env_settings` keeps every key present in
the existing file (its `KEY='VALUE'` line is in the output), and consists of
exactly one rendered line per key of the merged dict, the key list being
duplicate-free and sorted. -/
theorem save_env_settings_keeps_keys (defaults settings : List (String × String))
    (existing : Option (List String)) :
    (∀ k, k ∈ (parse_existing existing).keys →
        render_env_line (save_env_dict defaults settings existing) k
          ∈ save_env_settings defaults settings existing)
    ∧ save_env_settings defaults settings existing
        = (List.insertionSort (fun a b => strLe a b = true)
            (save_env_dict defaults settings existing).keys).map
            (render_env_line (save_env_dict defaults settings existing))
    ∧ List.Sorted (fun a b => strLe a b = true)
        (List.insertionSort (fun a b => strLe a b = true)
          (save_env_dict defaults settings existing).keys)
    ∧ (List.insertionSort (fun a b => strLe a b = true)
        (save_env_dict defaults settings existing).keys).Nodup := by
  refine ⟨?_, rfl, List.sorted_insertionSort _ _, ?_⟩
  · intro k hk
    have hk2 : k ∈ (save_env_dict defaults settings existing).keys := by
      rw [save_env_dict_eq]
      exact (SDict.mem_update_keys _ _ k).mpr (Or.inl hk)
    have hk3 : k ∈ List.insertionSort (fun a b => strLe a b = true)
        (save_env_dict defaults settings existing).keys :=
      ((List.perm_insertionSort _ _).mem_iff).mpr hk2
    exact List.mem_map_of_mem _ hk3
  · refine ((List.perm_insertionSort _ _).nodup_iff).mpr ?_
    rw [save_env_dict_eq]
    exact SDict.nodup_update _ _ (nodup_parse_existing existing)
      (SDict.nodup_update _ _ (SDict.nodup_ofList defaults) (SDict.nodup_ofList settings))

/-- Witness for C6 at the spec example: existing file `FOO='1'` and call with
`{"BAR": "2"}` produce a file containing both lines, in sorted key order. -/
theorem save_env_settings_keeps_keys_witness :
    "FOO" ∈ (parse_existing (some ["FOO=" ++ squote ++ "1" ++ squote])).keys
    ∧ render_env_line
        (save_env_dict visible_default_env_settings [("BAR", "2")]
          (some ["FOO=" ++ squote ++ "1" ++ squote])) "FOO"
        ∈ save_env_settings visible_default_env_settings [("BAR", "2")]
            (some ["FOO=" ++ squote ++ "1" ++ squote])
    ∧ save_env_settings visible_default_env_settings [("BAR", "2")]
          (some ["FOO=" ++ squote ++ "1" ++ squote])
        = ["BAR=" ++ squote ++ "2" ++ squote,
           "FOO=" ++ squote ++ "1" ++ squote,
           "TELEGRAM_API_ID=" ++ squote ++ squote] :=
  ⟨by decide,
   (save_env_settings_keeps_keys visible_default_env_settings [("BAR", "2")]
      (some ["FOO=" ++ squote ++ "1" ++ squote])).1 "FOO" (by decide),
   by decide⟩

/-- A guarded create leaves any other path untouched. -/
theorem create_if_missing_other (path content : String) (fs : String → Option String)
    (q : String) (h : ¬ q = path) : create_if_missing path content fs q = fs q := by
  unfold create_if_missing
  split
  · rfl
  · simp [h]

/-- A guarded create never overwrites an existing file. -/
theorem create_if_missing_keeps (path content : String) (fs : String → Option String)
    (q v : String) (h : fs q = some v) : create_if_missing path content fs q = some v := by
  unfold create_if_missing
  split
  · exact h
  · by_cases hq : q = path
    · subst hq
      simp_all
    · simp [hq, h]

/-- A guarded create fills in a missing file. -/
theorem create_if_missing_creates (path content : String) (fs : String → Option String)
    (h : fs path = none) : create_if_missing path content fs path = some content := by
  unfold create_if_missing
  simp [h]

/-- Pointwise description of `_initialize_config_files`: an existing file is
untouched; a missing file is created exactly when it is one of the three
default artifacts. -/
theorem initialize_config_files_apply (ec dc tc : String) (fs : String → Option String)
    (p : String) :
    initialize_config_files ec dc tc fs p =
      match fs p with
      | some c => some c
      | none =>
        if p = example_env_file then some ec
        else if p = mobile_devices_path then some dc
        else if p = telegram_entities_path then some tc
        else none := by
  have hme : ¬ mobile_devices_path = example_env_file := by decide
  have hte : ¬ telegram_entities_path = example_env_file := by decide
  have htm : ¬ telegram_entities_path = mobile_devices_path := by decide
  unfold initialize_config_files
  by_cases h1 : p = example_env_file
  · subst h1
    cases hp : fs example_env_file with
    | some c =>
      have e1 := create_if_missing_keeps example_env_file ec fs example_env_file c hp
      have e2 := create_if_missing_keeps mobile_devices_path dc _ example_env_file c e1
      have e3 := create_if_missing_keeps telegram_entities_path tc _ example_env_file c e2
      rw [e3]
    | none =>
      have e1 := create_if_missing_creates example_env_file ec fs hp
      have e2 := create_if_missing_keeps mobile_devices_path dc _ example_env_file ec e1
      have e3 := create_if_missing_keeps telegram_entities_path tc _ example_env_file ec e2
      rw [e3]
      simp
  · by_cases h2 : p = mobile_devices_path
    · subst h2
      have e0 : create_if_missing example_env_file ec fs mobile_devices_path
          = fs mobile_devices_path :=
        create_if_missing_other example_env_file ec fs mobile_devices_path hme
      cases hp : fs mobile_devices_path with
      | some c =>
        have e1 := create_if_missing_keeps mobile_devices_path dc
          (create_if_missing example_env_file ec fs) mobile_devices_path c (e0.trans hp)
        have e2 := create_if_missing_keeps telegram_entities_path tc _ mobile_devices_path c e1
        rw [e2]
      | none =>
        have e1 := create_if_missing_creates mobile_devices_path dc
          (create_if_missing example_env_file ec fs) (e0.trans hp)
        have e2 := create_if_missing_keeps telegram_entities_path tc _ mobile_devices_path dc e1
        rw [e2]
        simp [hme]
    · by_cases h3 : p = telegram_entities_path
      · subst h3
        have e0 : create_if_missing mobile_devices_path dc
            (create_if_missing example_env_file ec fs) telegram_entities_path
            = fs telegram_entities_path :=
          (create_if_missing_other mobile_devices_path dc _ telegram_entities_path htm).trans
            (create_if_missing_other example_env_file ec fs telegram_entities_path hte)
        cases hp : fs telegram_entities_path with
        | some c =>
          have e1 := create_if_missing_keeps telegram_entities_path tc _ telegram_entities_path c
            (e0.trans hp)
          rw [e1]
        | none =>
          have e1 := create_if_missing_creates telegram_entities_path tc _ (e0.trans hp)
          rw [e1]
          simp [hte, htm]
      · have e3 : initialize_config_files ec dc tc fs p = fs p := by
          unfold initialize_config_files
          rw [create_if_missing_other telegram_entities_path tc _ p h3,
            create_if_missing_other mobile_devices_path dc _ p h2,
            create_if_missing_other example_env_file ec fs p h1]
        rw [show create_if_missing telegram_entities_path tc
            (create_if_missing mobile_devices_path dc
              (create_if_missing example_env_file ec fs)) p = fs p from e3]
        cases hp : fs p with
        | some c => rfl
        | none => simp [h1, h2, h3]

/-- C8: `_initialize_config_files` is idempotent on the filesystem: every
already-existing file keeps its content, each of the three default artifacts
is created exactly when missing, and a second run on the resulting directory
changes nothing. -/
theorem initialize_config_files_idempotent (ec dc tc : String)
    (fs : String → Option String) :
    (∀ p c, fs p = some c → initialize_config_files ec dc tc fs p = some c)
    ∧ initialize_config_files ec dc tc (initialize_config_files ec dc tc fs)
        = initialize_config_files ec dc tc fs
    ∧ (fs example_env_file = none →
        initialize_config_files ec dc tc fs example_env_file = some ec)
    ∧ (fs mobile_devices_path = none →
        initialize_config_files ec dc tc fs mobile_devices_path = some dc)
    ∧ (fs telegram_entities_path = none →
        initialize_config_files ec dc tc fs telegram_entities_path = some tc) := by
  refine ⟨?_, ?_, ?_, ?_, ?_⟩
  · intro p c h
    rw [initialize_config_files_apply, h]
  · funext p
    rw [initialize_config_files_apply ec dc tc (initialize_config_files ec dc tc fs) p,
      initialize_config_files_apply ec dc tc fs p]
    cases hp : fs p with
    | some c => rfl
    | none =>
      by_cases h1 : p = example_env_file
      · simp [h1]
      · by_cases h2 : p = mobile_devices_path
        · simp [h1, h2, show ¬ mobile_devices_path = example_env_file from by decide]
        · by_cases h3 : p = telegram_entities_path
          · simp [h1, h2, h3,
              show ¬ telegram_entities_path = example_env_file from by decide,
              show ¬ telegram_entities_path = mobile_devices_path from by decide]
          · simp [h1, h2, h3]
  · intro h
    rw [initialize_config_files_apply, h]
    simp
  · intro h
    rw [initialize_config_files_apply, h]
    simp [show ¬ mobile_devices_path = example_env_file from by decide]
  · intro h
    rw [initialize_config_files_apply, h]
    simp [show ¬ telegram_entities_path = example_env_file from by decide,
      show ¬ telegram_entities_path = mobile_devices_path from by decide]

/-- Witness for C8 on a directory holding only an entities file: the two
missing artifacts are created, the existing one is kept, and a second run is
a no-op. -/
theorem initialize_config_files_idempotent_witness :
    initialize_config_files "E" "D" "T"
        (fun q => if q = telegram_entities_path then some "kept" else none)
        telegram_entities_path = some "kept"
    ∧ initialize_config_files "E" "D" "T"
        (initialize_config_files "E" "D" "T"
          (fun q => if q = telegram_entities_path then some "kept" else none))
        = initialize_config_files "E" "D" "T"
            (fun q => if q = telegram_entities_path then some "kept" else none)
    ∧ initialize_config_files "E" "D" "T"
        (fun q => if q = telegram_entities_path then some "kept" else none)
        example_env_file = some "E"
    ∧ initialize_config_files "E" "D" "T"
        (fun q => if q = telegram_entities_path then some "kept" else none)
        mobile_devices_path = some "D" :=
  have h := initialize_config_files_idempotent "E" "D" "T"
    (fun q => if q = telegram_entities_path then some "kept" else none)
  ⟨h.1 telegram_entities_path "kept" (by decide), h.2.1, h.2.2.1 (by decide), h.2.2.2.1 (by decide)⟩

/-- Witness for C7 at a one-variable environment: the key set is the default
set and the set variable overrides the default. -/
theorem get_env_settings_spec_witness :
    (get_env_settings (fun k => if k = "TELEGRAM_API_ID" then some "42" else none)
        visible_default_env_settings).map Prod.fst
      = visible_default_env_settings.map Prod.fst
    ∧ List.lookup "TELEGRAM_API_ID"
        (get_env_settings (fun k => if k = "TELEGRAM_API_ID" then some "42" else none)
          visible_default_env_settings)
      = some "42" :=
  ⟨(get_env_settings_spec (fun k => if k = "TELEGRAM_API_ID" then some "42" else none)
      visible_default_env_settings).1,
   by
    rw [(get_env_settings_spec (fun k => if k = "TELEGRAM_API_ID" then some "42" else none)
      visible_default_env_settings).2 "TELEGRAM_API_ID"]
    decide⟩
